import Mathlib

/-!
Shallow embedding of the kftdi FTDI/MPSSE driver (src/lib.rs, src/mpsse.rs)
and proofs about its transport and protocol layer.

Machine integers are modelled as `Nat` with explicit `% 2^w` where wrapping
matters (Rust release-mode semantics for `u8`/`u16`/`u32` casts and wrapping
subtraction). Fallible operations return `Except`/`Option`; code paths that
call `panic!`/`todo!` are modelled by an explicit `panicked` constructor.
-/

set_option autoImplicit false

namespace Kftdi

/-! ### Data model (lib.rs) -/

/-- `DeviceType` from lib.rs: the four supported FTDI chip families. -/
inductive DeviceType
  | FT4232H
  | FT2232C
  | FT2232H
  | FT232H
deriving DecidableEq, Repr

/-- `InterfaceType` from lib.rs: logical kind of a port. -/
inductive InterfaceKind
  | Mpsse
  | Uart
deriving DecidableEq, Repr

/-- The read-ahead buffer `read_buffer : (Vec<u8>, usize)` of `Interface`:
byte store plus consumed-offset cursor. -/
structure ReadBuffer where
  data : List Nat
  cursor : Nat
deriving DecidableEq, Repr

/-- A bulk transfer completion as returned by `next_complete()`:
a status (`none` = success, `some e` = transfer error code) and the
received bytes. -/
structure Completion where
  status : Option Nat
  buffer : List Nat
deriving DecidableEq, Repr

/-! ### Endpoint derivation (lib.rs `in_endpoint` / `out_endpoint`,
`InterfaceInfo::open`). `num` is the `u8` port index; arithmetic is `u8`,
modelled with `% 256`. -/

/-- `(((self.num + 1) * 2) - 1) | 0x80` -/
def in_endpoint (num : Nat) : Nat :=
  ((((num + 1) * 2) - 1) ||| 0x80) % 256

/-- `(self.num + 1) * 2` -/
def out_endpoint (num : Nat) : Nat :=
  ((num + 1) * 2) % 256

/-! ### Clock divisor (mpsse.rs `clock_divisor`).
`frequency` is `u32`; `6_000_000 / frequency - 1` is `u32` truncating
division followed by wrapping subtraction, then `as u16` truncation. -/

/-- Wrapping `u32` subtraction of 1 (release-mode semantics of `x - 1`). -/
def u32sub1 (x : Nat) : Nat :=
  (x + 4294967295) % 4294967296

/-- `clock_divisor` from mpsse.rs. -/
def clock_divisor (dt : DeviceType) (frequency : Nat) : Nat × Option Bool :=
  match dt with
  | .FT2232C => (u32sub1 (6000000 / frequency) % 65536, none)
  | .FT2232H | .FT4232H | .FT232H =>
      if frequency ≤ 6000000 then
        (u32sub1 (6000000 / frequency) % 65536, some true)
      else
        (u32sub1 (30000000 / frequency) % 65536, some false)

/-! ### MPSSE command bytes (mpsse.rs command table, the entries the
protocol driver uses). -/

def EnableLoopbackByte : Nat := 0x84
def DisableLoopbackByte : Nat := 0x85
def SynchronizeByte : Nat := 0xAB
def SetClockFrequencyByte : Nat := 0x86
def EnableClockDivideByte : Nat := 0x8B
def DisableClockDivideByte : Nat := 0x8A

/-! ### Synchronization handshake (mpsse.rs `synchronize_mpsse`). -/

/-- The bytes `synchronize_mpsse` sends as one `write_all` call. -/
def synchronize_mpsse_write : List Nat :=
  [EnableLoopbackByte, SynchronizeByte, DisableLoopbackByte]

/-- The number of response bytes `synchronize_mpsse` reads (`[0u8; 2]`). -/
def synchronize_mpsse_read_len : Nat := 2

/-- The acceptance check of `synchronize_mpsse` on the two response bytes:
`if !(buf[0] == 0xfa && buf[1] == Synchronize::byte())` return the
error carrying the observed bytes, else `Ok(())`. -/
def synchronize_mpsse_check (b0 b1 : Nat) : Except (Nat × Nat) Unit :=
  if ¬ (b0 = 0xfa ∧ b1 = SynchronizeByte) then .error (b0, b1) else .ok ()

/-! ### Control transfers (lib.rs). Each operation builds one
vendor/device control packet; we record its request, value and index
fields. `num` is the `u8` port index (`self.num as u16` widens, so no
wrap), `millis`/`bitmask`/`bitmode`/`value` model the `u8`-cast payload
fields with `% 256`, and `timer.as_millis() as u16` with `% 65536`. -/

structure ControlPkt where
  request : Nat
  value : Nat
  index : Nat
deriving DecidableEq, Repr

/-- `reset`: request `Reset = 0x00`, value 0, index `num + 1`. -/
def reset_pkt (num : Nat) : ControlPkt := ⟨0x00, 0, num + 1⟩

/-- `purge_rx`: request `Reset = 0x00`, value 1, index `num + 1`. -/
def purge_rx_pkt (num : Nat) : ControlPkt := ⟨0x00, 1, num + 1⟩

/-- `purge_tx`: request `Reset = 0x00`, value 2, index `num + 1`. -/
def purge_tx_pkt (num : Nat) : ControlPkt := ⟨0x00, 2, num + 1⟩

/-- `set_latency_timer`: request `SetLatencyTimer = 0x09`. -/
def set_latency_timer_pkt (num millis : Nat) : ControlPkt :=
  ⟨0x09, millis % 65536, num + 1⟩

/-- `latency_timer`: request `GetLatencyTimer = 0x0a`, control-in. -/
def get_latency_timer_pkt (num : Nat) : ControlPkt := ⟨0x0a, 0, num + 1⟩

/-- `set_bitmode`: request `SetBitmode = 0x0b`,
value `bitmask as u16 | ((bitmode as u16) << 8)`. -/
def set_bitmode_pkt (num bitmask bitmode : Nat) : ControlPkt :=
  ⟨0x0b, (bitmask % 256) ||| ((bitmode % 256) <<< 8), num + 1⟩

/-- `status`: request `GetStatus = 0x05`, control-in of 2 bytes. -/
def get_status_pkt (num : Nat) : ControlPkt := ⟨0x05, 0, num + 1⟩

/-- `set_event_char`: request `SetEventChar = 0x06`,
value `u16::from_le_bytes([value as u8, enable as u8])`; note the index
field is `self.num as u16`, the raw port index. -/
def set_event_char_pkt (num value : Nat) (enable : Bool) : ControlPkt :=
  ⟨0x06, (value % 256) ||| ((if enable then 1 else 0) <<< 8), num⟩

/-- `set_error_char`: request `SetErrorChar = 0x07`, same value encoding;
the index field is again the raw `self.num as u16`. -/
def set_error_char_pkt (num value : Nat) (enable : Bool) : ControlPkt :=
  ⟨0x07, (value % 256) ||| ((if enable then 1 else 0) <<< 8), num⟩

/-! ### Stubbed modem-control operations (lib.rs `set_dtr` etc.).
Each body is `todo!()`, which panics — modelled by an explicit
`panicked` outcome distinct from any returned error. -/

inductive CallOutcome
  | ok
  | err (kind : String)
  | panicked
deriving DecidableEq, Repr

def set_dtr : CallOutcome := .panicked
def clear_dtr : CallOutcome := .panicked
def set_rts : CallOutcome := .panicked
def clear_rts : CallOutcome := .panicked

/-! ### Device enumeration (lib.rs `list_devices`, `list_interfaces`,
`Interface::with_serial_number`). -/

/-- The fields of `nusb::DeviceInfo` the driver consults. -/
structure UsbDeviceInfo where
  vendor_id : Nat
  device_version : Nat
  numInterfaces : Nat
  serial_number : Option String
deriving DecidableEq, Repr

/-- The `InterfaceInfo` produced by enumeration, keyed back to its
device's descriptor fields. -/
structure InterfaceEntry where
  dev : UsbDeviceInfo
  device_type : DeviceType
  num : Nat
  kind : InterfaceKind
deriving DecidableEq, Repr

/-- Result of classifying one vendor-0x0403 device by its
`device_version` field: either a device type with its interface list, or
a process abort (`panic!("unknown device version …")`, or the inner
`panic!("unknown interface")` for an FT4232H with more than 4 ports). -/
inductive EnumResult
  | ok (device_type : DeviceType) (ints : List InterfaceEntry)
  | panicked (version : Nat)
  | interfacePanic (idx : Nat)
deriving DecidableEq, Repr

/-- The `match version { … }` body of `list_devices` for one device. -/
def classify_device (d : UsbDeviceInfo) : EnumResult :=
  if d.device_version = 0x800 then
    if d.numInterfaces ≤ 4 then
      .ok .FT4232H ((List.range d.numInterfaces).map (fun i =>
        ⟨d, .FT4232H, i, if i ≤ 1 then .Mpsse else .Uart⟩))
    else .interfacePanic 4
  else if d.device_version = 0x700 ∨ d.device_version = 0x900 then
    .ok .FT232H [⟨d, .FT232H, 0, .Mpsse⟩]
  else if d.device_version = 0x600 then
    .ok .FT232H [⟨d, .FT232H, 0, .Uart⟩]
  else
    .panicked d.device_version

/-- `list_devices`: filter the host's device list to vendor `0x0403`,
then classify each device. (The Rust iterator is lazy; consuming an
element whose classification panics aborts the whole process.) -/
def list_devices (devs : List UsbDeviceInfo) : List (UsbDeviceInfo × EnumResult) :=
  (devs.filter (fun d => d.vendor_id = 0x0403)).map
    (fun d => (d, classify_device d))

/-- `list_interfaces`: flatten all devices' interface lists. A device
whose classification panics aborts the flattening, so this is only
defined on classifications that all succeeded; panics yield `none`. -/
def list_interfaces (devs : List UsbDeviceInfo) : Option (List InterfaceEntry) :=
  (list_devices devs).foldr
    (fun p acc =>
      match p.2, acc with
      | .ok _ ints, some rest => some (ints ++ rest)
      | _, _ => none)
    (some [])

/-- `Interface::with_serial_number(sn, port)`: find the first interface
entry whose device serial number equals `sn`. The `port` argument is
accepted but never consulted by the search closure. -/
def with_serial_number (sn : String) (port : Nat) (devs : List UsbDeviceInfo) :
    Option (Except String InterfaceEntry) :=
  (list_interfaces devs).map (fun ints =>
    match ints.find? (fun i => i.dev.serial_number = some sn) with
    | some i => .ok i
    | none => .error "device not found")

/-! ### Buffered bulk read (lib.rs `read_all`).
`read_all` is a loop over bulk-in completions; we embed it as a function
of the read-ahead buffer, the requested length, and the (finite) list of
completions the endpoint would deliver, returning the delivered bytes,
the final buffer, and the number of bulk-in transfers issued — or `none`
when the completion list runs out with the span still unfilled (the real
loop would keep waiting). Completion `status` is carried but — exactly as
in the source — never consulted. -/

/-- `raw_res.buffer.chunks(self.max_packet_size)`: partition into chunks
of at most `n` bytes (`n > 0` in practice; the `0` case mirrors
`chunks`' precondition and returns the list whole). -/
def chunksOf : Nat → List Nat → List (List Nat)
  | _, [] => []
  | 0, a :: as => [a :: as]
  | n + 1, a :: as =>
      (a :: as).take (n + 1) :: chunksOf (n + 1) ((a :: as).drop (n + 1))
termination_by n l => l.length
decreasing_by
  simp [List.length_drop]
  omega

/-- Loop state of `read_all`: bytes still needed for the caller's span,
bytes delivered so far, and the bytes appended to the read-ahead
buffer's store (`oldbuf.0`). -/
structure RState where
  need : Nat
  out : List Nat
  ovf : List Nat
deriving DecidableEq, Repr

/-- The body of `for chunk in raw_res.buffer.chunks(max_packet_size)`:
chunks of more than 2 bytes lose their 2 status bytes, fill the span,
and park any surplus in the read-ahead buffer; chunks of 2 or fewer
bytes are skipped. -/
def processChunk (st : RState) (chunk : List Nat) : RState :=
  if 2 < chunk.length then
    let res := chunk.drop 2
    let copylen := min res.length st.need
    let out2 := st.out ++ res.take copylen
    let need2 := st.need - copylen
    let rest := res.drop copylen
    if need2 = 0 ∧ rest ≠ [] then ⟨need2, out2, st.ovf ++ rest⟩
    else ⟨need2, out2, st.ovf⟩
  else st

/-- The `while !buf.is_empty()` loop: submit one transfer of
`max_packet_size`, process every chunk of its completion, repeat.
Returns the final state and the number of transfers issued. -/
def readLoop (mps : Nat) : List Completion → RState → Option (RState × Nat)
  | [], st => if st.need = 0 then some (st, 0) else none
  | c :: ts, st =>
      if st.need = 0 then some (st, 0)
      else
        match readLoop mps ts ((chunksOf mps c.buffer).foldl processChunk st) with
        | some (st2, n) => some (st2, n + 1)
        | none => none

/-- The initial drain from the read-ahead buffer (the first `if` of
`read_all`): copy `min(buf.len(), oldbuf.0.len().saturating_sub(oldbuf.1))`
bytes from the unconsumed tail and advance the cursor. Returns the bytes
taken, the advanced buffer, and the bytes still needed. -/
def drainBuffer (rb : ReadBuffer) (len : Nat) : List Nat × ReadBuffer × Nat :=
  if rb.data.drop rb.cursor ≠ [] ∧ len ≠ 0 then
    let copylen := min len (rb.data.length - rb.cursor)
    ((rb.data.drop rb.cursor).take copylen,
     ⟨rb.data, rb.cursor + copylen⟩, len - copylen)
  else ([], rb, len)

/-- `Interface::read_all`: drain the read-ahead buffer, clear it if more
bytes are needed (`oldbuf.0 = vec![]; oldbuf.1 = 0`), then run the
transfer loop. -/
def read_all (mps : Nat) (rb : ReadBuffer) (len : Nat) (ts : List Completion) :
    Option (List Nat × ReadBuffer × Nat) :=
  match drainBuffer rb len with
  | (out0, rb1, need1) =>
    let rb2 : ReadBuffer := if need1 ≠ 0 then ⟨[], 0⟩ else rb1
    match readLoop mps ts ⟨need1, out0, rb2.data⟩ with
    | some (st, n) => some (st.out, ⟨st.ovf, rb2.cursor⟩, n)
    | none => none

/-- `Interface::write_all`: submit the bytes as one bulk-out transfer
and propagate the completion's status (`next_complete().await.status?`). -/
def write_all (buf : List Nat) (c : Completion) : Except Nat (List Nat) :=
  match c.status with
  | some e => .error e
  | none => .ok buf

/-! ### Purge (lib.rs `purge_rx` / `purge_tx` / `purge_all`).
Each run records the USB requests it issues; the read-ahead buffer is
passed through untouched (the source never locks `read_buffer` here). -/

inductive UsbRequest
  | controlOut (pkt : ControlPkt)
  | bulkIn (len : Nat)
deriving DecidableEq, Repr

/-- `purge_rx`: `Reset` control-out with value 1, then one throwaway
bulk-in transfer of `max_packet_size` whose completion status is
propagated (`next_complete().await.status?`) and whose bytes are
discarded. -/
def purge_rx_run (num mps : Nat) (c : Completion) (rb : ReadBuffer) :
    List UsbRequest × ReadBuffer × Except Nat Unit :=
  ([.controlOut (purge_rx_pkt num), .bulkIn mps], rb,
   match c.status with
   | some e => .error e
   | none => .ok ())

/-- `purge_tx`: `Reset` control-out with value 2. -/
def purge_tx_run (num : Nat) (rb : ReadBuffer) :
    List UsbRequest × ReadBuffer × Except Nat Unit :=
  ([.controlOut (purge_tx_pkt num)], rb, .ok ())

/-- `purge_all`: `purge_rx().await?` then `purge_tx().await?`. -/
def purge_all_run (num mps : Nat) (c : Completion) (rb : ReadBuffer) :
    List UsbRequest × ReadBuffer × Except Nat Unit :=
  match purge_rx_run num mps c rb with
  | (evs, rb1, .error e) => (evs, rb1, .error e)
  | (evs, rb1, .ok ()) =>
      match purge_tx_run num rb1 with
      | (evs2, rb2, r) => (evs ++ evs2, rb2, r)

/-! ### Theorems -/

lemma u32sub1_mod (q : Nat) (h1 : 1 ≤ q) (hq : q ≤ 30000000)
    (hfit : q - 1 < 65536) : u32sub1 q % 65536 = q - 1 := by
  unfold u32sub1
  omega

/-- C3: for every frequency `f ≥ 1` whose resulting quotient fits in 16
bits, `clock_divisor` on an FT2232C returns `(6_000_000/f − 1, None)`; on
FT2232H/FT4232H/FT232H it returns `(6_000_000/f − 1, Some(true))` when
`f ≤ 6_000_000` and `(30_000_000/f − 1, Some(false))` when
`f > 6_000_000`, with truncating integer division; and the four FT232H
examples evaluate as stated. -/
theorem clock_divisor_spec (f : Nat) (h1 : 1 ≤ f) :
    ((1 ≤ 6000000 / f → 6000000 / f - 1 < 65536 →
      clock_divisor .FT2232C f = (6000000 / f - 1, none)
      ∧ (f ≤ 6000000 →
          clock_divisor .FT2232H f = (6000000 / f - 1, some true)
          ∧ clock_divisor .FT4232H f = (6000000 / f - 1, some true)
          ∧ clock_divisor .FT232H f = (6000000 / f - 1, some true)))
    ∧ (6000000 < f → 1 ≤ 30000000 / f →
        clock_divisor .FT2232H f = (30000000 / f - 1, some false)
        ∧ clock_divisor .FT4232H f = (30000000 / f - 1, some false)
        ∧ clock_divisor .FT232H f = (30000000 / f - 1, some false)))
    ∧ clock_divisor .FT232H 6000000 = (0, some true)
    ∧ clock_divisor .FT232H 3000000 = (1, some true)
    ∧ clock_divisor .FT232H 30000000 = (0, some false)
    ∧ clock_divisor .FT232H 15000000 = (1, some false) := by
  refine ⟨⟨?_, ?_⟩, by decide, by decide, by decide, by decide⟩
  · intro hq hfit
    have hle : 6000000 / f ≤ 30000000 := le_trans (Nat.div_le_self _ _) (by norm_num)
    have hmod := u32sub1_mod (6000000 / f) hq hle hfit
    constructor
    · simp [clock_divisor, hmod]
    · intro hf6
      simp [clock_divisor, hf6, hmod]
  · intro hf6 hq
    have hlt : 30000000 / f < 5 := by
      rw [Nat.div_lt_iff_lt_mul (by omega : 0 < f)]
      omega
    have hmod := u32sub1_mod (30000000 / f) hq (le_trans (Nat.div_le_self _ _) (le_refl _)) (by omega)
    have hnot : ¬ f ≤ 6000000 := by omega
    simp [clock_divisor, hnot, hmod]

/-- Witness for `clock_divisor_spec` at `f = 1_000_000` (FT2232C gives
`(5, none)`) and at `f = 15_000_000` (FT232H gives `(1, some false)`). -/
theorem clock_divisor_spec_witness :
    clock_divisor .FT2232C 1000000 = (5, none)
    ∧ clock_divisor .FT232H 15000000 = (1, some false) :=
  ⟨((clock_divisor_spec 1000000 (by decide)).1.1 (by decide) (by decide)).1,
   (clock_divisor_spec 15000000 (by decide)).2.2.2.2⟩

/-- C2: `synchronize_mpsse` writes exactly `[0x84, 0xAB, 0x85]`
(EnableLoopback, Synchronize, DisableLoopback) as one bulk write, reads
exactly 2 response bytes, accepts exactly the pair `(0xFA, 0xAB)`, and
rejects every other pair with an error carrying the observed bytes. -/
theorem synchronize_mpsse_spec :
    synchronize_mpsse_write = [0x84, 0xAB, 0x85]
    ∧ synchronize_mpsse_read_len = 2
    ∧ ∀ b0 b1 : Nat,
        (synchronize_mpsse_check b0 b1 = .ok () ↔ (b0 = 0xFA ∧ b1 = 0xAB))
        ∧ (¬ (b0 = 0xFA ∧ b1 = 0xAB) →
            synchronize_mpsse_check b0 b1 = .error (b0, b1)) := by
  refine ⟨rfl, rfl, fun b0 b1 => ⟨?_, ?_⟩⟩
  · unfold synchronize_mpsse_check SynchronizeByte
    constructor
    · intro h
      by_contra hne
      simp [hne] at h
    · intro h
      simp [h]
  · intro h
    simp [synchronize_mpsse_check, SynchronizeByte, h]

/-- Witness for `synchronize_mpsse_spec`: the rejection branch at the
concrete response pair `(0xFA, 0x00)`. -/
theorem synchronize_mpsse_spec_witness :
    synchronize_mpsse_check 0xFA 0x00 = .error (0xFA, 0x00) :=
  (synchronize_mpsse_spec.2.2 0xFA 0x00).2 (by decide)

/-- C4: for every port index `p` in `0..=3`, the derived bulk-in endpoint
address is `((p+1)*2 − 1) | 0x80` and the bulk-out address is `(p+1)*2`;
in particular port 0 gives in `0x81` / out `0x02` and port 3 gives in
`0x87` / out `0x08`. -/
theorem endpoint_derivation (p : Fin 4) :
    in_endpoint p.val = (((p.val + 1) * 2 - 1) ||| 0x80)
    ∧ out_endpoint p.val = (p.val + 1) * 2
    ∧ in_endpoint 0 = 0x81 ∧ out_endpoint 0 = 0x02
    ∧ in_endpoint 3 = 0x87 ∧ out_endpoint 3 = 0x08 := by
  fin_cases p <;> decide

/-- C5 (code evaluation): a vendor-0x0403 device whose `device_version`
is none of 0x800/0x900/0x700/0x600 makes `list_devices` hit the
`panic!("unknown device version …")` arm — a process abort, not an
`UnsupportedDevice` error — shown here at version `0x500`, together with
the general statement that every unlisted version panics. -/
theorem list_devices_unknown_version_panics :
    list_devices [⟨0x0403, 0x500, 1, none⟩]
      = [(⟨0x0403, 0x500, 1, none⟩, .panicked 0x500)]
    ∧ (∀ d : UsbDeviceInfo,
        d.device_version ≠ 0x800 → d.device_version ≠ 0x700 →
        d.device_version ≠ 0x900 → d.device_version ≠ 0x600 →
        classify_device d = .panicked d.device_version)
    ∧ (∀ dt ints, EnumResult.panicked 0x500 ≠ .ok dt ints) := by
  refine ⟨by decide, fun d h8 h7 h9 h6 => ?_, fun dt ints h => by cases h⟩
  simp [classify_device, h8, h7, h9, h6]

/-- Witness for `list_devices_unknown_version_panics` at the concrete
device version `0x500`. -/
theorem list_devices_unknown_version_panics_witness :
    classify_device ⟨0x0403, 0x500, 1, none⟩ = .panicked 0x500 :=
  list_devices_unknown_version_panics.2.1 ⟨0x0403, 0x500, 1, none⟩
    (by decide) (by decide) (by decide) (by decide)

/-- The FT4232H device used in the C6 evaluation: serial "X", four
ports. -/
def ft4232hX : UsbDeviceInfo := ⟨0x0403, 0x800, 4, some "X"⟩

/-- C6 (code evaluation): `with_serial_number("X", 2)` on an FT4232H with
serial "X" returns the flattened sequence's first serial-matching
interface — port 0 — not port 2: the `port` argument is never consulted
by the search. The `DeviceNotFound` half does hold: with no matching
serial the result is the "device not found" error. -/
theorem with_serial_number_ignores_port :
    (∃ i, with_serial_number "X" 2 [ft4232hX] = some (.ok i) ∧ i.num = 0 ∧ i.num ≠ 2)
    ∧ (∀ port, with_serial_number "Y" port [ft4232hX]
        = some (.error "device not found")) := by
  constructor
  · exact ⟨⟨ft4232hX, .FT4232H, 0, .Mpsse⟩, rfl, rfl, by decide⟩
  · intro port
    rfl

/-- C7 (code evaluation): `reset`, `set_latency_timer`,
`latency_timer`, `set_bitmode`, `status`, `purge_rx` and `purge_tx` all
set the control index field to `num + 1`, but `set_event_char` and
`set_error_char` set it to the raw `num`: at port 0 they issue index 0
where the port-1-based convention requires 1. -/
theorem control_index_event_char_bug :
    (∀ num millis bitmask bitmode : Nat,
      (reset_pkt num).index = num + 1
      ∧ (set_latency_timer_pkt num millis).index = num + 1
      ∧ (get_latency_timer_pkt num).index = num + 1
      ∧ (set_bitmode_pkt num bitmask bitmode).index = num + 1
      ∧ (get_status_pkt num).index = num + 1
      ∧ (purge_rx_pkt num).index = num + 1
      ∧ (purge_tx_pkt num).index = num + 1)
    ∧ (set_event_char_pkt 0 97 true).index = 0
    ∧ (set_error_char_pkt 0 97 true).index = 0
    ∧ (0 : Nat) ≠ 0 + 1 := by
  exact ⟨fun num millis bitmask bitmode =>
    ⟨rfl, rfl, rfl, rfl, rfl, rfl, rfl⟩, rfl, rfl, by decide⟩

/-! Helper lemmas for `read_all`. -/

lemma processChunk_len (st : RState) (chunk : List Nat) :
    (processChunk st chunk).out.length + (processChunk st chunk).need
      = st.out.length + st.need := by
  unfold processChunk
  split
  · dsimp only
    split <;> simp only [List.length_append, List.length_take] <;> omega
  · rfl

lemma foldl_processChunk_len (chunks : List (List Nat)) (st : RState) :
    ((chunks.foldl processChunk st).out.length
      + (chunks.foldl processChunk st).need)
      = st.out.length + st.need := by
  induction chunks generalizing st with
  | nil => rfl
  | cons c cs ih => rw [List.foldl_cons, ih, processChunk_len]

lemma readLoop_len (mps : Nat) (ts : List Completion) (st st2 : RState)
    (n : Nat) (h : readLoop mps ts st = some (st2, n)) :
    st2.need = 0 ∧ st2.out.length = st.out.length + st.need := by
  induction ts generalizing st n with
  | nil =>
    unfold readLoop at h
    by_cases h0 : st.need = 0
    · rw [if_pos h0] at h
      have h1 : (st, 0) = (st2, n) := Option.some.inj h
      have hst : st = st2 := congrArg Prod.fst h1
      subst hst
      exact ⟨h0, by omega⟩
    · rw [if_neg h0] at h
      cases h
  | cons c cs ih =>
    unfold readLoop at h
    by_cases h0 : st.need = 0
    · rw [if_pos h0] at h
      have h1 : (st, 0) = (st2, n) := Option.some.inj h
      have hst : st = st2 := congrArg Prod.fst h1
      subst hst
      exact ⟨h0, by omega⟩
    · rw [if_neg h0] at h
      cases hrec : readLoop mps cs ((chunksOf mps c.buffer).foldl processChunk st) with
      | none => simp only [hrec] at h; cases h
      | some p =>
        obtain ⟨st3, m⟩ := p
        simp only [hrec] at h
        have h1 : (st3, m + 1) = (st2, n) := Option.some.inj h
        have hst : st3 = st2 := congrArg Prod.fst h1
        subst hst
        obtain ⟨hz, hlen⟩ := ih _ _ hrec
        have hfl := foldl_processChunk_len (chunksOf mps c.buffer) st
        exact ⟨hz, by omega⟩

lemma drainBuffer_len (rb : ReadBuffer) (len : Nat) :
    (drainBuffer rb len).1.length + (drainBuffer rb len).2.2 = len := by
  unfold drainBuffer
  split
  · next hc =>
    have hne := hc.1
    have hlt : rb.cursor < rb.data.length := by
      by_contra hge
      exact hne (List.drop_eq_nil_of_le (by omega))
    dsimp only
    rw [List.length_take, List.length_drop]
    omega
  · simp

lemma read_all_length (mps : Nat) (rb : ReadBuffer) (len : Nat)
    (ts : List Completion) (out : List Nat) (rb2 : ReadBuffer) (n : Nat)
    (h : read_all mps rb len ts = some (out, rb2, n)) : out.length = len := by
  unfold read_all at h
  rcases hdb : drainBuffer rb len with ⟨out0, rb1, need1⟩
  rw [hdb] at h
  simp only at h
  cases hrl : readLoop mps ts ⟨need1, out0,
      (if need1 ≠ 0 then (⟨[], 0⟩ : ReadBuffer) else rb1).data⟩ with
  | none => rw [hrl] at h; cases h
  | some p =>
    obtain ⟨st, m⟩ := p
    rw [hrl] at h
    obtain ⟨rfl, -, rfl⟩ : st.out = out ∧ (⟨st.ovf, _⟩ : ReadBuffer) = rb2 ∧ m = n := by
      injection h with h
      injection h with h1 h
      injection h with h2 h3
      exact ⟨h1, h2, h3⟩
    obtain ⟨-, hlen⟩ := readLoop_len _ _ _ _ _ hrl
    have hdl := drainBuffer_len rb len
    rw [hdb] at hdl
    simp only at hdl
    simp only at hlen
    omega

lemma chunksOf_single (n : Nat) (l : List Nat) (hne : l ≠ [])
    (hle : l.length ≤ n) : chunksOf n l = [l] := by
  match n, l with
  | _, [] => exact absurd rfl hne
  | 0, a :: as => simp at hle
  | n + 1, a :: as =>
    unfold chunksOf
    rw [List.take_of_length_le hle, List.drop_eq_nil_of_le hle]
    simp [chunksOf]

lemma drop_ten_ne_nil (payload : List Nat) (hp : payload.length = 62) :
    payload.drop 10 ≠ [] := by
  intro hnil
  have := congrArg List.length hnil
  rw [List.length_drop, hp] at this
  simp at this

/-- The first call of the C1 scenario, for an arbitrary completion
status: one 64-byte status-prefixed chunk, a 10-byte request. -/
lemma read_all_first_call (stat : Option Nat) (s0 s1 : Nat)
    (payload : List Nat) (hp : payload.length = 62) :
    read_all 64 ⟨[], 0⟩ 10 [⟨stat, s0 :: s1 :: payload⟩]
      = some (payload.take 10, ⟨payload.drop 10, 0⟩, 1) := by
  have hlen : (s0 :: s1 :: payload).length = 64 := by simp [hp]
  have hchunks : chunksOf 64 (s0 :: s1 :: payload) = [s0 :: s1 :: payload] :=
    chunksOf_single 64 _ (by simp) (by omega)
  have hpc : processChunk ⟨10, [], []⟩ (s0 :: s1 :: payload)
      = ⟨0, payload.take 10, payload.drop 10⟩ := by
    unfold processChunk
    rw [if_pos (by omega : 2 < (s0 :: s1 :: payload).length)]
    have hres : (s0 :: s1 :: payload).drop 2 = payload := rfl
    simp only [hres, hp]
    rw [if_pos ⟨by norm_num, drop_ten_ne_nil payload hp⟩]
    norm_num
  have hdb : drainBuffer ⟨[], 0⟩ 10 = ([], ⟨[], 0⟩, 10) := rfl
  unfold read_all
  rw [hdb]
  simp only [if_pos (by norm_num : (10 : Nat) ≠ 0)]
  unfold readLoop
  rw [if_neg (by norm_num : ¬ (10 : Nat) = 0)]
  simp only [hchunks, List.foldl_cons, List.foldl_nil, hpc]
  unfold readLoop
  rfl

/-- The second call of the C1 scenario: a 52-byte request served
entirely from the read-ahead buffer, with no transfer issued. -/
lemma read_all_second_call (payload : List Nat) (hp : payload.length = 62) :
    read_all 64 ⟨payload.drop 10, 0⟩ 52 []
      = some (payload.drop 10, ⟨payload.drop 10, 52⟩, 0) := by
  have hlen : (payload.drop 10).length = 52 := by
    rw [List.length_drop, hp]
  have hdb : drainBuffer ⟨payload.drop 10, 0⟩ 52
      = (payload.drop 10, ⟨payload.drop 10, 52⟩, 0) := by
    unfold drainBuffer
    rw [if_pos ⟨by simpa using drop_ten_ne_nil payload hp, by norm_num⟩]
    simp only [List.drop_zero, hlen]
    norm_num
    exact hp.le
  unfold read_all
  rw [hdb]
  simp only [if_neg (by norm_num : ¬ (0 : Nat) ≠ 0)]
  unfold readLoop
  rfl

lemma readLoop_status_blind (mps : Nat) (ts ts2 : List Completion)
    (st : RState) (hb : ts.map Completion.buffer = ts2.map Completion.buffer) :
    readLoop mps ts st = readLoop mps ts2 st := by
  induction ts generalizing ts2 st with
  | nil =>
    cases ts2 with
    | nil => rfl
    | cons c cs => cases hb
  | cons c cs ih =>
    cases ts2 with
    | nil => cases hb
    | cons c2 cs2 =>
      simp only [List.map_cons, List.cons.injEq] at hb
      unfold readLoop
      rw [hb.1, ih cs2 _ hb.2]

/-- C1: `read_all` fills the caller's span completely whenever it
returns (never a short result), strips the two status bytes of every
max-packet-size chunk, parks surplus payload in the read-ahead buffer,
and on the concrete 64-byte scenario: a first 10-byte read issues one
transfer, delivers the first 10 payload bytes and buffers the other 52;
a second 52-byte read drains the buffer exactly with no new transfer. -/
theorem read_all_spec :
    (∀ (mps : Nat) (rb : ReadBuffer) (len : Nat) (ts : List Completion)
       (out : List Nat) (rb2 : ReadBuffer) (n : Nat),
        read_all mps rb len ts = some (out, rb2, n) → out.length = len)
    ∧ (∀ (stat : Option Nat) (s0 s1 : Nat) (payload : List Nat),
        payload.length = 62 →
        read_all 64 ⟨[], 0⟩ 10 [⟨stat, s0 :: s1 :: payload⟩]
          = some (payload.take 10, ⟨payload.drop 10, 0⟩, 1)
        ∧ read_all 64 ⟨payload.drop 10, 0⟩ 52 []
          = some (payload.drop 10, ⟨payload.drop 10, 52⟩, 0)) :=
  ⟨read_all_length,
   fun stat s0 s1 payload hp =>
     ⟨read_all_first_call stat s0 s1 payload hp,
      read_all_second_call payload hp⟩⟩

/-- Witness for `read_all_spec`: the scenario at the concrete payload
`List.range 62`, and the exact-fill property at a 0-byte request. -/
theorem read_all_spec_witness :
    ([] : List Nat).length = 0
    ∧ read_all 64 ⟨[], 0⟩ 10 [⟨none, 0 :: 1 :: List.range 62⟩]
        = some ((List.range 62).take 10, ⟨(List.range 62).drop 10, 0⟩, 1) :=
  ⟨read_all_spec.1 64 ⟨[], 0⟩ 0 [] [] ⟨[], 0⟩ 0 rfl,
   (read_all_spec.2 none 0 1 (List.range 62) (by simp)).1⟩

/-- C9: `purge_all` is stateless and idempotent: every run issues the
`Reset` control-out with value 1, one throwaway bulk-in transfer of
`max_packet_size`, then the `Reset` control-out with value 2; the
read-ahead buffer is returned untouched, a second run issues the same
request sequence, and the requests do not depend on the buffer state. -/
theorem purge_all_stateless (num mps : Nat) (bytes bytes2 : List Nat)
    (rb rb2 : ReadBuffer) :
    purge_all_run num mps ⟨none, bytes⟩ rb
      = ([.controlOut ⟨0x00, 1, num + 1⟩, .bulkIn mps,
          .controlOut ⟨0x00, 2, num + 1⟩], rb, .ok ())
    ∧ (purge_all_run num mps ⟨none, bytes⟩ rb).2.1 = rb
    ∧ (purge_all_run num mps ⟨none, bytes2⟩
         (purge_all_run num mps ⟨none, bytes⟩ rb).2.1).1
        = (purge_all_run num mps ⟨none, bytes⟩ rb).1
    ∧ (purge_all_run num mps ⟨none, bytes⟩ rb).1
        = (purge_all_run num mps ⟨none, bytes⟩ rb2).1 :=
  ⟨rfl, rfl, rfl, rfl⟩

/-- C10: `read_all` never consults a completion's status field — its
result depends only on the received bytes, so a transfer that completes
with an error still has its bytes delivered and the call still returns
`Ok` once the span is filled; in contrast `write_all` and `purge_rx`
propagate their completion's status as an error. -/
theorem read_all_status_blind :
    (∀ (mps : Nat) (rb : ReadBuffer) (len : Nat) (ts ts2 : List Completion),
        ts.map Completion.buffer = ts2.map Completion.buffer →
        read_all mps rb len ts = read_all mps rb len ts2)
    ∧ (∀ (e s0 s1 : Nat) (payload : List Nat), payload.length = 62 →
        read_all 64 ⟨[], 0⟩ 10 [⟨some e, s0 :: s1 :: payload⟩]
          = some (payload.take 10, ⟨payload.drop 10, 0⟩, 1))
    ∧ (∀ (bytes : List Nat) (e : Nat) (c : Completion), c.status = some e →
        write_all bytes c = .error e)
    ∧ (∀ (num mps e : Nat) (c : Completion) (rb : ReadBuffer),
        c.status = some e →
        (purge_rx_run num mps c rb).2.2 = .error e) := by
  refine ⟨fun mps rb len ts ts2 hb => ?_,
          fun e s0 s1 payload hp => read_all_first_call (some e) s0 s1 payload hp,
          fun bytes e c hc => ?_, fun num mps e c rb hc => ?_⟩
  · unfold read_all
    rcases hdb : drainBuffer rb len with ⟨out0, rb1, need1⟩
    dsimp only
    rw [readLoop_status_blind mps ts ts2 _ hb]
  · simp [write_all, hc]
  · simp [purge_rx_run, hc]

/-- Witness for `read_all_status_blind`: a failed-status transfer still
delivers its bytes; `write_all` and `purge_rx` propagate the same
status; status-blindness at two completion lists differing only in
status. -/
theorem read_all_status_blind_witness :
    read_all 64 ⟨[], 0⟩ 10 [⟨some 7, 0 :: 1 :: List.range 62⟩]
      = some ((List.range 62).take 10, ⟨(List.range 62).drop 10, 0⟩, 1)
    ∧ write_all [1, 2, 3] ⟨some 7, []⟩ = .error 7
    ∧ (purge_rx_run 0 64 ⟨some 7, []⟩ ⟨[], 0⟩).2.2 = .error 7
    ∧ read_all 64 ⟨[], 0⟩ 10 [⟨some 7, 0 :: 1 :: List.range 62⟩]
        = read_all 64 ⟨[], 0⟩ 10 [⟨none, 0 :: 1 :: List.range 62⟩] :=
  ⟨read_all_status_blind.2.1 7 0 1 (List.range 62) (by simp),
   read_all_status_blind.2.2.1 [1, 2, 3] 7 ⟨some 7, []⟩ rfl,
   read_all_status_blind.2.2.2 0 64 7 ⟨some 7, []⟩ ⟨[], 0⟩ rfl,
   read_all_status_blind.1 64 ⟨[], 0⟩ 10 _ _ rfl⟩

/-- C8 (code evaluation): `set_dtr`, `clear_dtr`, `set_rts` and
`clear_rts` are `todo!()` bodies: each call panics (aborts the process)
and in particular never returns a `NotImplemented` error to the
caller. -/
theorem modem_control_stubs_panic :
    set_dtr = .panicked ∧ clear_dtr = .panicked
    ∧ set_rts = .panicked ∧ clear_rts = .panicked
    ∧ (∀ kind, set_dtr ≠ .err kind) ∧ (∀ kind, clear_dtr ≠ .err kind)
    ∧ (∀ kind, set_rts ≠ .err kind) ∧ (∀ kind, clear_rts ≠ .err kind) := by
  refine ⟨rfl, rfl, rfl, rfl, ?_, ?_, ?_, ?_⟩ <;>
    intro kind h <;> cases h

end Kftdi
